import Mathlib

/-!
Shallow embedding of the po-gl/Raytracer core (Rust) in Lean 4, for checking
the natural-language specification against the source.

Modelling conventions, used throughout:

* Rust `f64` scalars are modelled as real numbers `ℝ`.  The wrapper type
  `Float` from `src/float.rs` only changes the equality relation, so it is
  modelled as `ℝ` together with the explicit tolerant relation `floatEq`
  (the source's `PartialEq for Float`); `PartialOrd for Float` delegates to
  the raw order on `f64`, which is the raw order on `ℝ` here.
* Trait objects (`Box<dyn Shape>`, `Box<dyn Pattern>`) are modelled as
  records whose function-valued fields are the dynamically dispatched
  methods that the embedded pipeline actually calls.
* Code that can panic (indexing `lights[0]` on an empty vector, `unwrap()`
  on `None`) is modelled in the `Option` monad: `none` is the panic.
* The thread-local random generator used by area-light sampling is modelled
  as an explicit per-light sample stream (a function from the iteration
  counter to the four raw draws the source makes per iteration).
-/

namespace Raytracer

open Classical in
/-- Classical decidability for the ε-tolerant comparisons of the source;
all definitions using it are noncomputable, mirroring the real-number
model. -/
noncomputable scoped instance (priority := low) propDec (p : Prop) : Decidable p :=
  Classical.propDecidable p

/-- FLOAT_THRESHOLD from src/main.rs: `const FLOAT_THRESHOLD: f64 = 0.00001`. -/
noncomputable def eps : ℝ := 1 / 100000

/-- The source's `PartialEq for Float` (src/float.rs lines 58-63), verbatim:
`((a-b) < ε ∧ (a-b) ≥ 0) ∨ ((b-a) < ε ∧ (b-a) ≥ 0)`. -/
def floatEq (a b : ℝ) : Prop :=
  (a - b < eps ∧ 0 ≤ a - b) ∨ (b - a < eps ∧ 0 ≤ b - a)

theorem floatEq_iff_abs (a b : ℝ) : floatEq a b ↔ |a - b| < eps := by
  unfold floatEq
  rw [abs_sub_lt_iff]
  constructor
  · rintro (⟨h1, h2⟩ | ⟨h1, h2⟩) <;> constructor <;> linarith [eps, show (0:ℝ) < eps by norm_num [eps]]
  · rintro ⟨h1, h2⟩
    rcases le_total b a with h | h
    · exact Or.inl ⟨h1, by linarith⟩
    · exact Or.inr ⟨h2, by linarith⟩

/-- Intersection record from src/intersection.rs: a t value and the object hit. -/
structure Intersection (α : Type) where
  t : ℝ
  object : α

/-- The source's `hit` (src/intersection.rs lines 43-64).  The assignment
`min_t = intersect.t` is commented out in the source, so `min_t` stays at
`f64::MAX` for the whole loop: the loop returns the first record whose `t`
is strictly positive (the conjunct `t < f64::MAX` is vacuous for the finite
scalars modelled here), and the trailing `min_t == Float::max()` test is
always true, yielding `none`. -/
noncomputable def hit {α : Type} : List (Intersection α) → Option (Intersection α)
  | [] => none
  | i :: rest => if 0 < i.t then some i else hit rest

/-- Claim C1, counterexample: on the unsorted list `[{t := 5}, {t := 2}]` the
source's `hit` returns the record with `t = 5`, although the record with
`t = 2` is in the list, has strictly positive `t`, and `2 < 5`; so `hit`
does not return the smallest strictly-positive `t` of an unsorted list. -/
theorem hit_unsorted_counterexample :
    hit [(⟨5, ()⟩ : Intersection Unit), ⟨2, ()⟩] = some ⟨5, ()⟩ ∧
    (⟨2, ()⟩ : Intersection Unit) ∈ [(⟨5, ()⟩ : Intersection Unit), ⟨2, ()⟩] ∧
    (0 : ℝ) < 2 ∧ (2 : ℝ) < 5 := by
  refine ⟨?_, by simp, by norm_num, by norm_num⟩
  simp [hit]

/-- Claim C1, as amended: `hit` returns the first record with strictly
positive `t` and `none` when there is none; hence on a list that is sorted
ascending by `t` (the precondition documented in the source), the returned
record has the smallest strictly-positive `t` value, and `none` is returned
exactly when no record has strictly positive `t` (in particular for `[]`). -/
theorem hit_sorted_returns_min_positive {α : Type} (xs : List (Intersection α))
    (hs : xs.Sorted (fun a b => a.t ≤ b.t)) :
    (hit xs = none ↔ ∀ i ∈ xs, ¬ (0 < i.t)) ∧
    (∀ i, hit xs = some i →
        i ∈ xs ∧ 0 < i.t ∧ ∀ j ∈ xs, 0 < j.t → i.t ≤ j.t) := by
  induction xs with
  | nil => simp [hit]
  | cons a rest ih =>
    rcases List.sorted_cons.mp hs with ⟨ha, hrest⟩
    by_cases hpos : 0 < a.t
    · refine ⟨by simp [hit, hpos], ?_⟩
      intro i hi
      simp [hit, hpos] at hi
      subst hi
      refine ⟨List.mem_cons_self a rest, hpos, ?_⟩
      intro j hj _
      rcases List.mem_cons.mp hj with h | h
      · simp [h]
      · exact ha j h
    · have ihs := ih hrest
      constructor
      · rw [show hit (a :: rest) = hit rest by simp [hit, hpos]]
        rw [ihs.1]
        constructor
        · intro h i hi
          rcases List.mem_cons.mp hi with h1 | h1
          · simpa [h1] using hpos
          · exact h i h1
        · intro h i hi
          exact h i (List.mem_cons_of_mem a hi)
      · intro i hi
        rw [show hit (a :: rest) = hit rest by simp [hit, hpos]] at hi
        obtain ⟨hmem, hp, hmin⟩ := ihs.2 i hi
        refine ⟨List.mem_cons_of_mem a hmem, hp, ?_⟩
        intro j hj hjp
        rcases List.mem_cons.mp hj with h1 | h1
        · exact absurd (h1 ▸ hjp) hpos
        · exact hmin j h1 hjp

/-- Witness for `hit_sorted_returns_min_positive` at the sorted list
`[{t := -1}, {t := 2}, {t := 3}]`: the hit is the record with `t = 2`. -/
theorem hit_sorted_returns_min_positive_witness :
    hit [(⟨-1, ()⟩ : Intersection Unit), ⟨2, ()⟩, ⟨3, ()⟩] = some ⟨2, ()⟩ ∧
    (hit [(⟨-1, ()⟩ : Intersection Unit), ⟨2, ()⟩, ⟨3, ()⟩] = none ↔
      ∀ i ∈ [(⟨-1, ()⟩ : Intersection Unit), ⟨2, ()⟩, ⟨3, ()⟩], ¬ (0 < i.t)) := by
  have h := hit_sorted_returns_min_positive
    [(⟨-1, ()⟩ : Intersection Unit), ⟨2, ()⟩, ⟨3, ()⟩]
    (by simp [List.Sorted]; norm_num)
  exact ⟨by norm_num [hit], h.1⟩

/-- Four-component tuple from src/tuple.rs (w = 1 marks a point, w = 0 a
vector). -/
structure Tuple where
  x : ℝ
  y : ℝ
  z : ℝ
  w : ℝ

namespace Tuple

/-- Componentwise addition (src/tuple.rs impl_op +). -/
def add (a b : Tuple) : Tuple := ⟨a.x + b.x, a.y + b.y, a.z + b.z, a.w + b.w⟩

/-- Componentwise subtraction (src/tuple.rs impl_op -). -/
def sub (a b : Tuple) : Tuple := ⟨a.x - b.x, a.y - b.y, a.z - b.z, a.w - b.w⟩

/-- Negation (src/tuple.rs impl_op unary -): each component is `0 - c`. -/
def neg (a : Tuple) : Tuple := ⟨0 - a.x, 0 - a.y, 0 - a.z, 0 - a.w⟩

/-- Scalar multiplication (src/tuple.rs impl_op *). -/
def smul (a : Tuple) (s : ℝ) : Tuple := ⟨a.x * s, a.y * s, a.z * s, a.w * s⟩

end Tuple

/-- Dot product over all four components (src/tuple.rs `dot`). -/
def dot (a b : Tuple) : ℝ := a.x * b.x + a.y * b.y + a.z * b.z + a.w * b.w

namespace Tuple

/-- `reflect` from src/tuple.rs: `self − normal·2·dot(self, normal)`. -/
def reflect (a normal : Tuple) : Tuple :=
  a.sub ((normal.smul 2).smul (dot a normal))

/-- `magnitude` from src/tuple.rs: square root of the sum of squares of all
four components. -/
noncomputable def magnitude (a : Tuple) : ℝ :=
  Real.sqrt (a.x * a.x + a.y * a.y + a.z * a.z + a.w * a.w)

/-- `normalize` from src/tuple.rs: the zero tuple when the magnitude is
ε-equal to zero, otherwise each component divided by the magnitude. -/
noncomputable def normalize (a : Tuple) : Tuple :=
  if floatEq a.magnitude 0 then ⟨0, 0, 0, 0⟩
  else ⟨a.x / a.magnitude, a.y / a.magnitude, a.z / a.magnitude, a.w / a.magnitude⟩

end Tuple

/-- `point(x, y, z)` from src/tuple.rs: w = 1. -/
def pointT (x y z : ℝ) : Tuple := ⟨x, y, z, 1⟩

/-- `vector(x, y, z)` from src/tuple.rs: w = 0. -/
def vectorT (x y z : ℝ) : Tuple := ⟨x, y, z, 0⟩

/-- ε-tolerant tuple equality: the derived `PartialEq` of src/tuple.rs
compares each `Float` component with the tolerant relation. -/
def tupleEq (a b : Tuple) : Prop :=
  floatEq a.x b.x ∧ floatEq a.y b.y ∧ floatEq a.z b.z ∧ floatEq a.w b.w

/-- RGB color triple from src/color.rs. -/
structure Color where
  red : ℝ
  green : ℝ
  blue : ℝ

namespace Color

/-- Componentwise addition (src/color.rs impl_op +). -/
def add (a b : Color) : Color := ⟨a.red + b.red, a.green + b.green, a.blue + b.blue⟩

/-- Scalar multiplication (src/color.rs impl_op * with a scalar). -/
def smul (a : Color) (s : ℝ) : Color := ⟨a.red * s, a.green * s, a.blue * s⟩

/-- Hadamard product (src/color.rs impl_op * with a color). -/
def had (a b : Color) : Color := ⟨a.red * b.red, a.green * b.green, a.blue * b.blue⟩

/-- `Color::black()` from src/color.rs. -/
def black : Color := ⟨0, 0, 0⟩

end Color

/-- ε-tolerant color equality (derived `PartialEq` of src/color.rs over
`Float` channels). -/
def colorEq (a b : Color) : Prop :=
  floatEq a.red b.red ∧ floatEq a.green b.green ∧ floatEq a.blue b.blue

/-- Row-major 4×4 matrix from src/matrix.rs, modelled as a Mathlib matrix.
The source's `inverse` is the adjugate divided by the determinant (the
caller must ensure invertibility), which is exactly Mathlib's `M⁻¹` on
invertible matrices. -/
abbrev Matrix4 := Matrix (Fin 4) (Fin 4) ℝ

/-- Matrix-times-tuple multiplication from src/matrix.rs (each row dotted
with the tuple's components). -/
def matMulTuple (m : Matrix4) (t : Tuple) : Tuple :=
  ⟨m 0 0 * t.x + m 0 1 * t.y + m 0 2 * t.z + m 0 3 * t.w,
   m 1 0 * t.x + m 1 1 * t.y + m 1 2 * t.z + m 1 3 * t.w,
   m 2 0 * t.x + m 2 1 * t.y + m 2 2 * t.z + m 2 3 * t.w,
   m 3 0 * t.x + m 3 1 * t.y + m 3 2 * t.z + m 3 3 * t.w⟩

/-- ε-tolerant matrix equality (derived `PartialEq` of src/matrix.rs over
`Float` entries). -/
def matrixEq (a b : Matrix4) : Prop := ∀ i j, floatEq (a i j) (b i j)

/-- Ray from src/ray.rs: origin point and direction vector.  The
constructor's debug assertion that origin is a point and direction a vector
is not modelled; no claim concerns it. -/
structure Ray where
  origin : Tuple
  direction : Tuple

/-- `Ray::position(t) = origin + direction·t` (src/ray.rs). -/
def Ray.position (r : Ray) (t : ℝ) : Tuple := r.origin.add (r.direction.smul t)

/-- A `Box<dyn Pattern>` trait object (src/pattern/mod.rs), modelled as its
own transform together with the dynamically dispatched `pattern_at`
method. -/
structure PatternObj where
  transform : Matrix4
  patternAt : Tuple → Color

/-- Material from src/material.rs.  The `normal_perturb_perlin` noise
generator carries no data relevant to any claim (its `PartialEq` ignores
the generator state) and is omitted. -/
structure Material where
  color : Color
  ambient : ℝ
  diffuse : ℝ
  specular : ℝ
  shininess : ℝ
  reflective : ℝ
  transparency : ℝ
  refractiveIndex : ℝ
  pattern : Option PatternObj
  normalPerturb : Option String
  normalPerturbFactor : Option ℝ

/-- `Material::new()` defaults (src/material.rs lines 26-37). -/
noncomputable def Material.new : Material :=
  ⟨⟨1, 1, 1⟩, 1/10, 9/10, 9/10, 200, 0, 0, 1, none, none, none⟩

/-- Option-lifted pointwise equality used for the option-valued fields of
the derived `PartialEq` on materials. -/
def optionEq {α : Type} (r : α → α → Prop) : Option α → Option α → Prop
  | none, none => True
  | some a, some b => r a b
  | _, _ => False

/-- Equality of pattern trait objects.  The source's `box_eq` compares the
two concrete pattern structs (transform entries through tolerant `Float`
equality); the dispatched `pattern_at` method is compared extensionally. -/
def patternObjEq (a b : PatternObj) : Prop :=
  matrixEq a.transform b.transform ∧ a.patternAt = b.patternAt

/-- Derived `PartialEq` of src/material.rs: tolerant equality on the scalar
and color fields, option equality on pattern and perturbation fields. -/
def materialEq (a b : Material) : Prop :=
  colorEq a.color b.color ∧ floatEq a.ambient b.ambient ∧
  floatEq a.diffuse b.diffuse ∧ floatEq a.specular b.specular ∧
  floatEq a.shininess b.shininess ∧ floatEq a.reflective b.reflective ∧
  floatEq a.transparency b.transparency ∧
  floatEq a.refractiveIndex b.refractiveIndex ∧
  optionEq patternObjEq a.pattern b.pattern ∧
  a.normalPerturb = b.normalPerturb ∧
  optionEq (fun x y => x = y) a.normalPerturbFactor b.normalPerturbFactor

/-- A `Box<dyn Shape>` trait object as it is consumed by the intersection
and shading pipeline: its id, transform and material data, plus the
dynamically dispatched world-space normal computation
(`shape::normal_at(shape, world_point, shape_list)` with the parent chain
already baked in). -/
structure SObject where
  id : ℤ
  transform : Matrix4
  material : Material
  normalAt : Tuple → Tuple

/-- `PartialEq for Box<dyn Shape>` (src/shape/mod.rs lines 68-75): equal
ids, equal materials and equal transforms. -/
def sobjEq (a b : SObject) : Prop :=
  a.id = b.id ∧ materialEq a.material b.material ∧ matrixEq a.transform b.transform

/-- Derived `PartialEq` of `Intersection` (src/intersection.rs line 12):
tolerant equality on `t` and object equality. -/
def interEq (a b : Intersection SObject) : Prop :=
  floatEq a.t b.t ∧ sobjEq a.object b.object

/-- `pattern_at_object` (default method, src/pattern/mod.rs lines 32-36):
`pattern_at( patternTransform⁻¹ · (shapeTransform⁻¹ · world_point) )`. -/
noncomputable def PatternObj.patternAtObject (p : PatternObj) (object : SObject)
    (worldPoint : Tuple) : Color :=
  p.patternAt (matMulTuple p.transform⁻¹ (matMulTuple object.transform⁻¹ worldPoint))

/-- Light from src/light.rs: position, intensity, `radius = none` for a
point light and `some r` for an area light, and the sample-ray count
(default 100).  The thread-local random generator that area-light sampling
draws from is modelled as an explicit stream `samples`: iteration `i` of
`compute_average_rays_to` draws `(x, y, z, d)` raw values. -/
structure Light where
  position : Tuple
  intensity : Color
  radius : Option ℝ
  rayCount : ℕ
  samples : ℕ → ℝ × ℝ × ℝ × ℝ

/-- `Light::point_light` (src/light.rs lines 26-31): no radius, default ray
count. -/
def Light.pointLight (position : Tuple) (intensity : Color) : Light :=
  ⟨position, intensity, none, 100, fun _ => (0, 0, 0, 0)⟩

/-- One world object as `World::intersects` consumes it: the dynamically
dispatched `intersects` method of the stored `Box<dyn Shape>`.  The records
it returns carry the hit shapes as `SObject` data. -/
structure WorldObject where
  intersectsFn : Ray → List (Intersection SObject)

/-- World from src/world.rs: object list, light list and the recursion
bound (`DEFAULT_RAY_BOUNCES = 4`). -/
structure World where
  objects : List WorldObject
  lights : List Light
  maxRecursion : ℤ

/-- `World::intersects` (src/world.rs lines 53-62): append every object's
intersections, then sort ascending by raw `t` (`sort_by` with
`partial_cmp`). -/
noncomputable def World.intersects (w : World) (ray : Ray) :
    List (Intersection SObject) :=
  ((w.objects.map (fun o => o.intersectsFn ray)).flatten).mergeSort
    (fun a b => decide (a.t ≤ b.t))

/-- Claim C3: for every world and ray, `World::intersects` returns exactly
the concatenation of each object's intersection records (as a permutation
of it), arranged in ascending order of `t`; ordering among equal `t` values
is not constrained. -/
theorem world_intersects_perm_concat_sorted (w : World) (ray : Ray) :
    (w.intersects ray).Perm ((w.objects.map (fun o => o.intersectsFn ray)).flatten) ∧
    (w.intersects ray).Pairwise (fun a b => a.t ≤ b.t) := by
  constructor
  · exact List.mergeSort_perm _ _
  · have h := @List.sorted_mergeSort (Intersection SObject)
      (fun a b => decide (a.t ≤ b.t))
      (fun a b c hab hbc => by
        simp only [decide_eq_true_eq] at *
        exact le_trans hab hbc)
      (fun a b => by
        simp only [Bool.or_eq_true, decide_eq_true_eq]
        exact le_total a.t b.t)
      ((w.objects.map (fun o => o.intersectsFn ray)).flatten)
    refine List.Pairwise.imp ?_ h
    intro a b hab
    simpa using hab

/-- `World::is_shadowed` (src/world.rs lines 194-215).  `self.lights[0]`
panics when the light list is empty, hence the `Option`. -/
noncomputable def World.isShadowed (w : World) (point : Tuple) : Option Bool :=
  match w.lights.head? with
  | none => none
  | some light0 =>
    let v := light0.position.sub point
    let distance := v.magnitude
    let direction := v.normalize
    let ray : Ray := ⟨point, direction⟩
    match hit (w.intersects ray) with
    | some h => some (decide (h.t < distance))
    | none => some false

/-- `Light::compute_average_rays_to` (src/light.rs lines 39-73), with the
thread-local generator replaced by the light's sample stream: iteration `i`
draws `(gx, gy, gz, gd)`, builds a unit direction from the centred draws,
scales by `cbrt(gd)·radius`, and counts the sample rays whose earliest
world hit is closer than the sampled light point.  Returns `none` when
`radius` is `None` (the `unwrap` would panic; the caller only reaches this
in the area-light branch). -/
noncomputable def Light.computeAverageRaysTo (light : Light) (point : Tuple)
    (w : World) : Option Color :=
  match light.radius with
  | none => none
  | some radius =>
    let rayHits := (List.range light.rayCount).countP (fun i =>
      let s := light.samples i
      let x0 := s.1 - 1/2
      let y0 := s.2.1 - 1/2
      let z0 := s.2.2.1 - 1/2
      let mg := Real.sqrt (x0 * x0 + y0 * y0 + z0 * z0)
      let x := x0 / mg
      let y := y0 / mg
      let z := z0 / mg
      let distance := s.2.2.2 ^ ((1 : ℝ) / 3) * radius
      let randomPoint := light.position.add (pointT (x * distance) (y * distance) (z * distance))
      let v0 := randomPoint.sub point
      let v : Tuple := ⟨v0.x, v0.y, v0.z, 0⟩
      let toLightDistance := v.magnitude
      let direction := v.normalize
      let ray : Ray := ⟨point, direction⟩
      match hit (w.intersects ray) with
      | some h => decide (h.t < toLightDistance)
      | none => false)
    let avg := ((light.rayCount : ℝ) - (rayHits : ℝ)) / (light.rayCount : ℝ)
    some ⟨avg, avg, avg⟩

/-- `Light::lighting` (src/light.rs lines 76-145).  The `Option` parameters
mirror the source signature; `none` results model the panicking `unwrap`s
of the area-light branch.  `finish` is the shared tail of the two paths
(the source reaches it by straight-line fallthrough after choosing the
light intensity). -/
noncomputable def lighting (material : Material) (object : Option SObject)
    (world : Option World) (lightSource : Light) (point : Tuple)
    (overPoint : Option Tuple) (eyeV normalV : Tuple) (inShadow : Bool) :
    Option Color :=
  let color :=
    match object, material.pattern with
    | some o, some p => p.patternAtObject o point
    | _, _ => material.color
  let effectiveColor := color.had lightSource.intensity
  let lightV := (lightSource.position.sub point).normalize
  let ambient := effectiveColor.smul material.ambient
  let lightDotNormal := dot lightV normalV
  let finish : Color → Color := fun lightIntensity =>
    let diffuse := ((color.had lightIntensity).smul material.diffuse).smul lightDotNormal
    let reflectV := (lightV.neg).reflect normalV
    let reflectDotEye := dot reflectV eyeV
    let specular :=
      if reflectDotEye ≤ 0 then Color.black
      else (lightIntensity.smul material.specular).smul (reflectDotEye ^ material.shininess)
    (ambient.add diffuse).add specular
  match lightSource.radius with
  | none =>
    if lightDotNormal < 0 ∨ inShadow then some ((ambient.add Color.black).add Color.black)
    else some (finish lightSource.intensity)
  | some _ =>
    match overPoint, world with
    | some op, some w =>
      match lightSource.computeAverageRaysTo op w with
      | some li => some (finish li)
      | none => none
    | _, _ => none

/-- Precomputed shading context from src/intersection.rs lines 18-31. -/
structure PrecomputedData where
  t : ℝ
  object : SObject
  point : Tuple
  overPoint : Tuple
  underPoint : Tuple
  eyev : Tuple
  normalv : Tuple
  reflectv : Tuple
  inside : Bool
  n1 : ℝ
  n2 : ℝ

/-- One container step of the refraction stack (src/intersection.rs lines
103-115): remove the first ε-equal occurrence of the object, else append
it. -/
noncomputable def containerToggle (container : List SObject) (obj : SObject) :
    List SObject :=
  match container.findIdx? (fun c => decide (sobjEq obj c)) with
  | some j => container.eraseIdx j
  | none => container ++ [obj]

/-- The n1/n2 loop of `prepare_computations` (src/intersection.rs lines
87-128): walk the intersection list maintaining the container stack; at the
record that equals the hit, take `n1` from the container top (1.0 when
empty), toggle the record's object, take `n2` likewise, and stop.  When the
hit never occurs in the list both indices keep their initial value 1.0. -/
noncomputable def refractiveIndices (intersection : Intersection SObject) :
    List (Intersection SObject) → List SObject → ℝ × ℝ
  | [], _ => (1, 1)
  | inter :: rest, container =>
    if interEq inter intersection then
      let n1 :=
        match container.getLast? with
        | some c => c.material.refractiveIndex
        | none => 1
      let container2 := containerToggle container inter.object
      let n2 :=
        match container2.getLast? with
        | some c => c.material.refractiveIndex
        | none => 1
      (n1, n2)
    else refractiveIndices intersection rest (containerToggle container inter.object)

/-- `prepare_computations` (src/intersection.rs lines 71-143).  The normal
is the dispatched `shape::normal_at`, inverted when the hit is inside;
over/under points are offset by FLOAT_THRESHOLD along it; `reflectv`
reflects the ray direction about the (possibly inverted) normal. -/
noncomputable def prepareComputations (intersection : Intersection SObject)
    (ray : Ray) (intersections : List (Intersection SObject)) : PrecomputedData :=
  let point := ray.position intersection.t
  let normalv0 := intersection.object.normalAt point
  let eyev := ray.direction.neg
  let inside := decide (dot normalv0 eyev < 0)
  let normalv := if inside then normalv0.neg else normalv0
  let overPoint := point.add (normalv.smul eps)
  let underPoint := point.sub (normalv.smul eps)
  let reflectv := ray.direction.reflect normalv
  let ns := refractiveIndices intersection intersections []
  ⟨intersection.t, intersection.object, point, overPoint, underPoint, eyev,
   normalv, reflectv, inside, ns.1, ns.2⟩

/-- `schlick` (src/intersection.rs lines 145-165): when `n1 > n2`, total
internal reflection (`sin²θ_t > 1`) returns 1.0 and otherwise the cosine is
replaced by `cos θ_t`; then `r0 + (1−r0)·(1−cos)⁵` with
`r0 = ((n1−n2)/(n1+n2))²`. -/
noncomputable def schlick (comps : PrecomputedData) : ℝ :=
  let cos0 := dot comps.eyev comps.normalv
  let r0 := ((comps.n1 - comps.n2) / (comps.n1 + comps.n2)) ^ 2
  if comps.n1 > comps.n2 then
    let n := comps.n1 / comps.n2
    let sin2T := n * n * (1 - cos0 * cos0)
    if sin2T > 1 then 1
    else r0 + (1 - r0) * (1 - Real.sqrt (1 - sin2T)) ^ 5
  else r0 + (1 - r0) * (1 - cos0) ^ 5

mutual

/-- `World::color_at_impl` (src/world.rs lines 76-82): intersect the world,
take the hit; black when there is none, else shade the prepared context.
The mutual recursion is well-founded by the measure `(remaining.toNat, k)`:
`remaining` never increases, the recursive color lookups of the reflect and
refract helpers pass `remaining − 1`, and the ranks `k` order the calls
made at an unchanged `remaining`. -/
noncomputable def World.colorAtImpl (w : World) (ray : Ray) (remaining : ℤ) :
    Option Color :=
  let intersections := w.intersects ray
  match hit intersections with
  | none => some Color.black
  | some theHit =>
    World.shadeHitImpl w (prepareComputations theHit ray intersections) remaining
termination_by (remaining.toNat, 2)

/-- `World::shade_hit_impl` (src/world.rs lines 96-112): shadow test,
reflected and refracted colors, Phong surface via `lighting` with
`lights[0]`, then the Schlick blend when the material is both reflective
and transparent. -/
noncomputable def World.shadeHitImpl (w : World) (comps : PrecomputedData)
    (remaining : ℤ) : Option Color := do
  let isSh ← w.isShadowed comps.overPoint
  let reflected ← World.reflectedColorImpl w comps remaining
  let refracted ← World.refractedColorImpl w comps remaining
  let light0 ← w.lights.head?
  let surface ← lighting comps.object.material (some comps.object) (some w) light0
      comps.point (some comps.overPoint) comps.eyev comps.normalv isSh
  let material := comps.object.material
  if material.reflective > 0 ∧ material.transparency > 0 then
    let reflectance := schlick comps
    pure ((surface.add (reflected.smul reflectance)).add
      (refracted.smul (1 - reflectance)))
  else
    pure ((surface.add reflected).add refracted)
termination_by (remaining.toNat, 1)

/-- `World::reflected_color_impl` (src/world.rs lines 126-142): black when
no rays remain or the material is not reflective, else the color of the
reflected ray at `remaining − 1`, scaled by `reflective`. -/
noncomputable def World.reflectedColorImpl (w : World) (comps : PrecomputedData)
    (remaining : ℤ) : Option Color :=
  if h : remaining < 1 then some Color.black
  else
    let reflective := comps.object.material.reflective
    if floatEq reflective 0 then some Color.black
    else
      (World.colorAtImpl w ⟨comps.overPoint, comps.reflectv⟩ (remaining - 1)).map
        (fun c => c.smul reflective)
termination_by (remaining.toNat, 0)

/-- `World::refracted_color_impl` (src/world.rs lines 156-192): black when
no rays remain, the material is not transparent, or total internal
reflection occurs (`sin²θ_t > 1`); else the color of the refracted ray
`Ray(under_point, normalv·(n_ratio·cos_i − cos_t) − eyev·n_ratio)` at
`remaining − 1`, scaled by `transparency`. -/
noncomputable def World.refractedColorImpl (w : World) (comps : PrecomputedData)
    (remaining : ℤ) : Option Color :=
  if h : remaining < 1 then some Color.black
  else
    let transparency := comps.object.material.transparency
    if floatEq transparency 0 then some Color.black
    else
      let nRat := comps.n1 / comps.n2
      let cosI := dot comps.eyev comps.normalv
      let sin2T := nRat * nRat * (1 - cosI * cosI)
      if sin2T > 1 then some Color.black
      else
        let cosT := Real.sqrt (1 - sin2T)
        let direction := (comps.normalv.smul (nRat * cosI - cosT)).sub
          (comps.eyev.smul nRat)
        (World.colorAtImpl w ⟨comps.underPoint, direction⟩ (remaining - 1)).map
          (fun c => c.smul transparency)
termination_by (remaining.toNat, 0)

end

/-- `World::color_at` (src/world.rs lines 68-70): wrapper at the world's
recursion bound. -/
noncomputable def World.colorAt (w : World) (ray : Ray) : Option Color :=
  World.colorAtImpl w ray w.maxRecursion

/-- `World::shade_hit` (src/world.rs lines 88-90): wrapper at the world's
recursion bound. -/
noncomputable def World.shadeHit (w : World) (comps : PrecomputedData) :
    Option Color :=
  World.shadeHitImpl w comps w.maxRecursion

/-- Arena-level view of a shape record, as stored in the `ShapeList`
(src/shape/shape_list.rs): leaves (sphere, plane, cube, cylinder, cone,
triangle, test shape) carry their `shape_type` tag and id; groups carry
their `children_ids`; CSG nodes carry `left_id`, `right_id` and the
operation string. -/
inductive ShapeRec where
  | leaf (shapeType : String) (id : ℤ)
  | group (id : ℤ) (childrenIds : List ℤ)
  | csg (id : ℤ) (leftId : Option ℤ) (rightId : Option ℤ) (operation : Option String)

/-- The record's `id` field. -/
def ShapeRec.id : ShapeRec → ℤ
  | leaf _ i => i
  | group i _ => i
  | csg i _ _ _ => i

/-- The per-variant `includes` methods: every leaf compares its own id
(e.g. src/shape/sphere.rs lines 80-82), a group tests membership in its
direct `children_ids` (src/shape/group.rs lines 98-100), and a CSG node
compares its direct `left_id`/`right_id` (src/shape/csg.rs lines
135-137). -/
def ShapeRec.includes : ShapeRec → ℤ → Bool
  | leaf _ i, x => i == x
  | group _ cs, x => cs.contains x
  | csg _ l r _, x => l == some x || r == some x

/-- `ShapeList::get` (src/shape/shape_list.rs lines 70-72): index the arena
at `id as usize`; `none` models the panic on a negative or out-of-range
id. -/
def arenaGet (shapes : List ShapeRec) (id : ℤ) : Option ShapeRec :=
  if 0 ≤ id then shapes.get? id.toNat else none

/-- `CSG::intersection_allowed` (src/shape/csg.rs lines 58-67). -/
def intersectionAllowed (op : String) (lhit inl inr : Bool) : Bool :=
  match op with
  | "union" => (lhit && !inr) || (!lhit && !inl)
  | "intersection" => (lhit && inr) || (!lhit && inl)
  | "difference" => (lhit && !inr) || (!lhit && inl)
  | _ => false

/-- The loop of `CSG::filter_intersects` (src/shape/csg.rs lines 69-94):
walk the records with the `(inl, inr)` state, look up the left child in the
arena, keep the record when `intersection_allowed` accepts it, and toggle
`inl` when the hit belongs to the left child, `inr` otherwise.  `none`
models the panics of `left_id.unwrap()`, `operation.unwrap()` and an
out-of-range arena access. -/
noncomputable def csgFilterLoop (leftId : Option ℤ) (operation : Option String)
    (shapes : List ShapeRec) :
    List (Intersection SObject) → Bool → Bool → Option (List (Intersection SObject))
  | [], _, _ => some []
  | inter :: rest, inl, inr => do
    let lid ← leftId
    let leftShape ← arenaGet shapes lid
    let op ← operation
    let lhit := leftShape.includes inter.object.id
    let keep := intersectionAllowed op lhit inl inr
    let inl2 := if lhit then !inl else inl
    let inr2 := if lhit then inr else !inr
    let tail ← csgFilterLoop leftId operation shapes rest inl2 inr2
    pure (if keep then inter :: tail else tail)

/-- `CSG::filter_intersects` (src/shape/csg.rs lines 69-94): both in-flags
start `false` ("both children outside"). -/
noncomputable def filterIntersects (leftId : Option ℤ) (operation : Option String)
    (shapes : List ShapeRec) (xs : List (Intersection SObject)) :
    Option (List (Intersection SObject)) :=
  csgFilterLoop leftId operation shapes xs false false

/-- Modelled from the spec: row "union" of Table 1. -/
def unionTable (lhit inl inr : Bool) : Bool := (lhit && !inr) || (!lhit && !inl)

/-- Modelled from the spec: row "intersection" of Table 1. -/
def intersectionTable (lhit inl inr : Bool) : Bool := (lhit && inr) || (!lhit && inl)

/-- Modelled from the spec: row "difference" of Table 1. -/
def differenceTable (lhit inl inr : Bool) : Bool := (lhit && !inr) || (!lhit && inl)

/-- Modelled from the spec: the filter walk it describes — keep each record
exactly when the table predicate holds at the record's position, toggling
`inl` after a record of the left child and `inr` after a record of the
right child. -/
def csgWalkKeep (tablePred : Bool → Bool → Bool → Bool)
    (lhitOf : Intersection SObject → Bool) :
    List (Intersection SObject) → Bool → Bool → List (Intersection SObject)
  | [], _, _ => []
  | i :: rest, inl, inr =>
    let lhit := lhitOf i
    let tail := csgWalkKeep tablePred lhitOf rest
      (if lhit then !inl else inl) (if lhit then inr else !inr)
    if tablePred lhit inl inr then i :: tail else tail

/-- The filter loop agrees with the spec's walk for any operation whose
`intersection_allowed` rows equal the given table predicate. -/
theorem csgFilterLoop_eq_walk (lid : ℤ) (op : String) (shapes : List ShapeRec)
    (L : ShapeRec) (hL : arenaGet shapes lid = some L)
    (tbl : Bool → Bool → Bool → Bool)
    (hop : ∀ l i r, intersectionAllowed op l i r = tbl l i r) :
    ∀ (xs : List (Intersection SObject)) (inl inr : Bool),
      csgFilterLoop (some lid) (some op) shapes xs inl inr =
        some (csgWalkKeep tbl (fun i => L.includes i.object.id) xs inl inr) := by
  intro xs
  induction xs with
  | nil => intro inl inr; rfl
  | cons a rest ih =>
    intro inl inr
    simp only [csgFilterLoop, csgWalkKeep, hL, Option.bind_eq_bind,
      Option.some_bind, ih, hop]
    rfl

/-- `ShapeList::get_id` (src/shape/shape_list.rs lines 58-60): the current
size, i.e. the next index to be allocated. -/
def getId (shapes : List ShapeRec) : ℤ := shapes.length

/-- `ShapeList::push` (src/shape/shape_list.rs lines 62-64). -/
def pushRec (shapes : List ShapeRec) (val : ShapeRec) : List ShapeRec :=
  shapes ++ [val]

/-- `ShapeList::update` (src/shape/shape_list.rs lines 74-76): overwrite
the slot at `val.id`; `none` models the panic on an out-of-range id. -/
def updateRec (shapes : List ShapeRec) (val : ShapeRec) : Option (List ShapeRec) :=
  if 0 ≤ val.id ∧ val.id.toNat < shapes.length
  then some (shapes.set val.id.toNat val) else none

/-- `Sphere::new` (src/shape/sphere.rs lines 28-33): read the next id, then
push the record carrying it.  Plane, cube, cylinder, cone, triangle and
test-shape constructors follow the same two steps. -/
def sphereNew (shapes : List ShapeRec) : List ShapeRec :=
  pushRec shapes (ShapeRec.leaf "sphere" (getId shapes))

/-- `Cube::new` (src/shape/cube.rs lines 29-34). -/
def cubeNew (shapes : List ShapeRec) : List ShapeRec :=
  pushRec shapes (ShapeRec.leaf "cube" (getId shapes))

/-- `Group::new` (src/shape/group.rs lines 29-34): the group's id is read
first; then the struct literal evaluates `Bounds::new(shape_list)`
(src/bounds.rs lines 24-30), which runs `Cube::new` and pushes a fresh
bounds cube; only afterwards is the group record itself pushed.  The cube
therefore lands at the index the group's id names, and the group record
lands one slot later. -/
def groupNew (shapes : List ShapeRec) : List ShapeRec :=
  let id := getId shapes
  let shapes1 := cubeNew shapes
  pushRec shapes1 (ShapeRec.group id [])

/-- The arena invariant stated by the specification: every stored record's
id equals its index. -/
def arenaInvariant (shapes : List ShapeRec) : Prop :=
  ∀ k (h : k < shapes.length), (shapes.get ⟨k, h⟩).id = (k : ℤ)

/-- A plain shape-data object with identity transform, default material and
identity normal method, used to populate concrete intersection records. -/
noncomputable def mkSObj (id : ℤ) : SObject :=
  ⟨id, 1, Material.new, fun t => t⟩

/-- Claim C6: `intersection_allowed` equals the Table 1 predicate for each
of the three operations and all flag combinations, and `filter_intersects`
(for a CSG whose left child resolves in the arena) keeps exactly the
records accepted by that predicate at their position, toggling `inl` after
records of the left child and `inr` after the others. -/
theorem csg_filter_matches_table :
    (∀ lhit inl inr : Bool,
      intersectionAllowed "union" lhit inl inr = unionTable lhit inl inr ∧
      intersectionAllowed "intersection" lhit inl inr = intersectionTable lhit inl inr ∧
      intersectionAllowed "difference" lhit inl inr = differenceTable lhit inl inr) ∧
    (∀ (shapes : List ShapeRec) (lid : ℤ) (L : ShapeRec),
      arenaGet shapes lid = some L →
      ∀ (xs : List (Intersection SObject)) (op : String)
        (tbl : Bool → Bool → Bool → Bool),
        (op, tbl) ∈ [("union", unionTable), ("intersection", intersectionTable),
          ("difference", differenceTable)] →
        filterIntersects (some lid) (some op) shapes xs =
          some (csgWalkKeep tbl (fun i => L.includes i.object.id) xs false false)) := by
  constructor
  · intro lhit inl inr
    refine ⟨rfl, rfl, rfl⟩
  · intro shapes lid L hL xs op tbl hmem
    have hop : ∀ l i r, intersectionAllowed op l i r = tbl l i r := by
      simp only [List.mem_cons, List.not_mem_nil, or_false, Prod.mk.injEq] at hmem
      rcases hmem with ⟨h1, h2⟩ | ⟨h1, h2⟩ | ⟨h1, h2⟩ <;> subst h1 <;> subst h2 <;>
        intro l i r <;> rfl
    exact csgFilterLoop_eq_walk lid op shapes L hL tbl hop xs false false

/-- Witness for `csg_filter_matches_table`: the arena holds a sphere (id 0)
and a cube (id 1); a union CSG with left child 0 filters the four-record
list of the source's `csg_intersection_filtering` test. -/
theorem csg_filter_matches_table_witness :
    intersectionAllowed "union" true false false = unionTable true false false ∧
    filterIntersects (some 0) (some "union")
        [ShapeRec.leaf "sphere" 0, ShapeRec.leaf "cube" 1]
        [⟨1, mkSObj 0⟩, ⟨2, mkSObj 1⟩, ⟨3, mkSObj 0⟩, ⟨4, mkSObj 1⟩] =
      some (csgWalkKeep unionTable
        (fun i => (ShapeRec.leaf "sphere" 0).includes i.object.id)
        [⟨1, mkSObj 0⟩, ⟨2, mkSObj 1⟩, ⟨3, mkSObj 0⟩, ⟨4, mkSObj 1⟩] false false) := by
  refine ⟨(csg_filter_matches_table.1 true false false).1, ?_⟩
  exact csg_filter_matches_table.2
    [ShapeRec.leaf "sphere" 0, ShapeRec.leaf "cube" 1] 0 (ShapeRec.leaf "sphere" 0)
    rfl _ "union" unionTable (by simp)

/-- Claim C7, counterexample: a sphere with id 0 inside a group with id 1
inside a group with id 2.  The outer group's `includes(0)` is `false`
although the sphere is in its subtree (the inner group's `includes(0)` is
`true`); a CSG whose left child is the outer group also answers `false`.
Inclusion is not recursive. -/
theorem includes_not_recursive_counterexample :
    (ShapeRec.group 1 [0]).includes 0 = true ∧
    (ShapeRec.group 2 [1]).includes 0 = false ∧
    (ShapeRec.csg 3 (some 2) (some 1) (some "union")).includes 0 = false := by
  decide

/-- Modelled from the spec as amended: direct-child inclusion — a leaf
matches its own id, a group matches its direct `children_ids`, a CSG node
matches its direct left/right child ids. -/
def includesSpec : ShapeRec → ℤ → Prop
  | .leaf _ i, x => x = i
  | .group _ cs, x => x ∈ cs
  | .csg _ l r _, x => l = some x ∨ r = some x

/-- Claim C7, as amended: `includes(id)` answers true exactly for the node
itself (leaves) or its direct children (groups and CSG nodes) — not for
deeper descendants. -/
theorem includes_matches_direct_children (r : ShapeRec) (x : ℤ) :
    r.includes x = true ↔ includesSpec r x := by
  cases r with
  | leaf s i =>
    simp only [ShapeRec.includes, includesSpec, beq_iff_eq]
    exact eq_comm
  | group i cs => simp [ShapeRec.includes, includesSpec]
  | csg i l rr op =>
    simp [ShapeRec.includes, includesSpec, Bool.or_eq_true, beq_iff_eq]

/-- Claim C9: `Sphere::new` twice keeps the id-equals-index invariant, but
`Group::new` on an empty arena stores the bounds cube (id 0) at index 0 and
the group record (id 0) at index 1, so `record.id == index_in_arena` fails
for the group and `get(0)` returns the cube instead of the group. -/
theorem groupNew_breaks_arena_invariant :
    arenaInvariant (sphereNew (sphereNew [])) ∧
    (groupNew []).get? 0 = some (ShapeRec.leaf "cube" 0) ∧
    (groupNew []).get? 1 = some (ShapeRec.group 0 []) ∧
    ¬ arenaInvariant (groupNew []) := by
  refine ⟨?_, rfl, rfl, ?_⟩
  · intro k h
    simp only [sphereNew, pushRec, getId, List.length_append, List.length_cons,
      List.length_nil] at h
    interval_cases k <;> rfl
  · intro hinv
    have h2 : (1 : ℕ) < (groupNew []).length := by
      simp [groupNew, cubeNew, pushRec, getId]
    have := hinv 1 h2
    simp [groupNew, cubeNew, pushRec, getId, ShapeRec.id] at this

/-- Claim C8, counterexample: a context with `n1 = n2 = 1.5` and a
perpendicular eye vector (`dot(eyev, normalv) = 0`) makes `schlick` return
1.0 — since `n1 > n2` fails, the cosine stays 0 and `r0 = 0`, so the result
is `0 + 1·(1−0)⁵ = 1` — which is not within ε of the claimed 0.04.  (The
source's own perpendicular-ray test drives `schlick` with `n1 = 1.5`,
`n2 = 1.0` and cosine 1, which does give 0.04.) -/
theorem schlick_perpendicular_counterexample :
    schlick ⟨1, mkSObj 0, pointT 0 0 0, pointT 0 0 0, pointT 0 0 0,
      vectorT 1 0 0, vectorT 0 1 0, vectorT 0 0 0, false, 3/2, 3/2⟩ = 1 ∧
    ¬ floatEq 1 (4/100) := by
  constructor
  · simp only [schlick, dot, vectorT]
    norm_num
  · rw [floatEq_iff_abs]
    rw [show |(1 : ℝ) - 4/100| = 96/100 by rw [abs_of_pos] <;> norm_num]
    norm_num [eps]

/-- Claim C8, as amended: for every context in total internal reflection
(`n1 > n2` and `(n1/n2)²·(1 − cos²) > 1`), `schlick` returns 1.0; and for
every context with `n1 = 1.5`, `n2 = 1.0` and cosine `dot(eyev, normalv) =
1` (the perpendicular-strike configuration of the source's test), `schlick`
returns 0.04. -/
theorem schlick_tir_one_and_perpendicular_osc (comps : PrecomputedData) :
    (comps.n1 > comps.n2 →
      comps.n1 / comps.n2 * (comps.n1 / comps.n2) *
        (1 - dot comps.eyev comps.normalv * dot comps.eyev comps.normalv) > 1 →
      schlick comps = 1) ∧
    (comps.n1 = 3/2 → comps.n2 = 1 → dot comps.eyev comps.normalv = 1 →
      schlick comps = 4/100) := by
  constructor
  · intro hgt htir
    simp only [schlick]
    rw [if_pos hgt, if_pos htir]
  · intro h1 h2 h3
    simp only [schlick, h1, h2, h3]
    norm_num

/-- Witness for `schlick_tir_one_and_perpendicular_osc`: total internal
reflection at `n1 = 2 > n2 = 1` with a perpendicular eye vector gives 1.0;
the `n1 = 1.5`, `n2 = 1`, cosine-1 configuration gives 0.04. -/
theorem schlick_tir_one_and_perpendicular_osc_witness :
    schlick ⟨1, mkSObj 0, pointT 0 0 0, pointT 0 0 0, pointT 0 0 0,
      vectorT 1 0 0, vectorT 0 1 0, vectorT 0 0 0, false, 2, 1⟩ = 1 ∧
    schlick ⟨1, mkSObj 0, pointT 0 0 0, pointT 0 0 0, pointT 0 0 0,
      vectorT 0 1 0, vectorT 0 1 0, vectorT 0 0 0, false, 3/2, 1⟩ = 4/100 := by
  constructor
  · exact (schlick_tir_one_and_perpendicular_osc _).1 (by norm_num)
      (by simp only [dot, vectorT]; norm_num)
  · exact (schlick_tir_one_and_perpendicular_osc _).2 rfl rfl
      (by simp only [dot, vectorT]; norm_num)

/-- Claim C10: with an empty light list, `is_shadowed` and `shade_hit`
index `lights[0]` on an empty vector (modelled as `none` = panic), and
`color_at` on a ray with a hit reaches `shade_hit` and fails the same way;
no non-panicking color is defined for a lightless world. -/
theorem lightless_world_panics (w : World) (hw : w.lights = [])
    (comps : PrecomputedData) (p : Tuple) (remaining : ℤ) (ray : Ray)
    (hhit : (hit (w.intersects ray)).isSome = true) :
    w.isShadowed p = none ∧
    World.shadeHitImpl w comps remaining = none ∧
    World.colorAtImpl w ray remaining = none := by
  have hsh : ∀ q : Tuple, w.isShadowed q = none := by
    intro q
    simp [World.isShadowed, hw]
  have hshade : ∀ (c : PrecomputedData) (r : ℤ),
      World.shadeHitImpl w c r = none := by
    intro c r
    simp [World.shadeHitImpl, hsh c.overPoint]
  refine ⟨hsh p, hshade comps remaining, ?_⟩
  obtain ⟨theHit, hh⟩ := Option.isSome_iff_exists.mp hhit
  simp [World.colorAtImpl, hh, hshade]

/-- Witness for `lightless_world_panics`: a lightless world with one object
whose `intersects` returns a single record at `t = 1`; the shading entry
points all fail. -/
theorem lightless_world_panics_witness :
    (⟨[⟨fun _ => [⟨1, mkSObj 0⟩]⟩], [], 4⟩ : World).isShadowed (pointT 0 0 0) = none ∧
    World.shadeHitImpl ⟨[⟨fun _ => [⟨1, mkSObj 0⟩]⟩], [], 4⟩
      ⟨1, mkSObj 0, pointT 0 0 0, pointT 0 0 0, pointT 0 0 0,
        vectorT 0 0 1, vectorT 0 0 1, vectorT 0 0 1, false, 1, 1⟩ 4 = none ∧
    World.colorAtImpl ⟨[⟨fun _ => [⟨1, mkSObj 0⟩]⟩], [], 4⟩
      ⟨pointT 0 0 0, vectorT 0 0 1⟩ 4 = none := by
  refine lightless_world_panics _ rfl _ _ _ _ ?_
  simp only [World.intersects, List.map_cons, List.map_nil, List.flatten]
  rw [show ([⟨1, mkSObj 0⟩] : List (Intersection SObject)) ++ [] = [⟨1, mkSObj 0⟩]
    from List.append_nil _]
  rw [List.mergeSort]
  simp only [hit]
  rw [if_pos (by norm_num)]
  rfl

/-- An empty world with the default recursion bound. -/
def emptyWorld : World := ⟨[], [], 4⟩

/-- A material that is fully reflective and fully transparent (other fields
at the `Material::new` defaults). -/
noncomputable def glassyMaterial : Material :=
  ⟨⟨1, 1, 1⟩, 1/10, 9/10, 9/10, 200, 1, 1, 1, none, none, none⟩

/-- A shading context on a glassy object with `n1 = n2 = 1` and cosine 1
(no refraction bending, no total internal reflection). -/
noncomputable def glassyComps : PrecomputedData :=
  ⟨1, ⟨0, 1, glassyMaterial, fun t => t⟩, pointT 0 0 0, pointT 0 0 0,
   pointT 0 0 0, vectorT 0 1 0, vectorT 0 1 0, vectorT 0 0 1, false, 1, 1⟩

/-- A shading context on a glassy object in total internal reflection:
`n1 = 2 > n2 = 1` and a perpendicular eye vector, so `sin²θ_t = 4 > 1`. -/
noncomputable def tirComps : PrecomputedData :=
  ⟨1, ⟨0, 1, glassyMaterial, fun t => t⟩, pointT 0 0 0, pointT 0 0 0,
   pointT 0 0 0, vectorT 1 0 0, vectorT 0 1 0, vectorT 0 0 1, false, 2, 1⟩

/-- Claim C2: the recursion of the shading driver is bounded — whenever
`remaining < 1` both `reflected_color_impl` and `refracted_color_impl`
return black without recursing, and in the recursive cases each calls
`color_at_impl` with exactly `remaining − 1`.  (That the mutual recursion
is well-founded for every world and scene is certified by the kernel when
it accepts the definitions, whose termination measure is
`(remaining.toNat, rank)`.) -/
theorem color_recursion_guards (w : World) (comps : PrecomputedData) (remaining : ℤ) :
    (remaining < 1 →
      World.reflectedColorImpl w comps remaining = some Color.black ∧
      World.refractedColorImpl w comps remaining = some Color.black) ∧
    (¬ remaining < 1 → ¬ floatEq comps.object.material.reflective 0 →
      World.reflectedColorImpl w comps remaining =
        (World.colorAtImpl w ⟨comps.overPoint, comps.reflectv⟩ (remaining - 1)).map
          (fun c => c.smul comps.object.material.reflective)) ∧
    (¬ remaining < 1 → ¬ floatEq comps.object.material.transparency 0 →
      ¬ (comps.n1 / comps.n2 * (comps.n1 / comps.n2) *
          (1 - dot comps.eyev comps.normalv * dot comps.eyev comps.normalv) > 1) →
      World.refractedColorImpl w comps remaining =
        (World.colorAtImpl w
          ⟨comps.underPoint,
           (comps.normalv.smul (comps.n1 / comps.n2 * dot comps.eyev comps.normalv -
             Real.sqrt (1 - comps.n1 / comps.n2 * (comps.n1 / comps.n2) *
               (1 - dot comps.eyev comps.normalv * dot comps.eyev comps.normalv)))).sub
           (comps.eyev.smul (comps.n1 / comps.n2))⟩ (remaining - 1)).map
          (fun c => c.smul comps.object.material.transparency)) := by
  refine ⟨?_, ?_, ?_⟩
  · intro h
    constructor
    · simp [World.reflectedColorImpl, h]
    · simp [World.refractedColorImpl, h]
  · intro h1 h2
    simp only [World.reflectedColorImpl]
    rw [dif_neg h1, if_neg h2]
  · intro h1 h2 h3
    simp only [World.refractedColorImpl]
    rw [dif_neg h1, if_neg h2, if_neg h3]

/-- Witness for `color_recursion_guards`: on the glassy context the helpers
return black at `remaining = 0`, and at `remaining = 1` the reflected color
is the recursive color lookup at `remaining = 0` scaled by `reflective`. -/
theorem color_recursion_guards_witness :
    World.reflectedColorImpl emptyWorld glassyComps 0 = some Color.black ∧
    World.refractedColorImpl emptyWorld glassyComps 0 = some Color.black ∧
    World.reflectedColorImpl emptyWorld glassyComps 1 =
      (World.colorAtImpl emptyWorld ⟨glassyComps.overPoint, glassyComps.reflectv⟩ 0).map
        (fun c => c.smul glassyComps.object.material.reflective) := by
  have h0 := (color_recursion_guards emptyWorld glassyComps 0).1 (by norm_num)
  refine ⟨h0.1, h0.2, ?_⟩
  exact (color_recursion_guards emptyWorld glassyComps 1).2.1 (by norm_num)
    (by simp [glassyComps, glassyMaterial, floatEq, eps]; norm_num)

/-- Claim C5: `refracted_color` returns black when no rays remain, when the
material is not transparent, or under total internal reflection
(`sin²θ_t = (n1/n2)²·(1 − cos_i²) > 1` with `cos_i = dot(eyev, normalv)`);
otherwise it is the color of `color_at` on
`Ray(under_point, normalv·(n_ratio·cos_i − cos_t) − eyev·n_ratio)` at
`remaining − 1`, scaled by the transparency. -/
theorem refracted_color_spec (w : World) (comps : PrecomputedData) (remaining : ℤ) :
    (remaining < 1 →
      World.refractedColorImpl w comps remaining = some Color.black) ∧
    (floatEq comps.object.material.transparency 0 →
      World.refractedColorImpl w comps remaining = some Color.black) ∧
    (comps.n1 / comps.n2 * (comps.n1 / comps.n2) *
        (1 - dot comps.eyev comps.normalv * dot comps.eyev comps.normalv) > 1 →
      World.refractedColorImpl w comps remaining = some Color.black) ∧
    (¬ remaining < 1 → ¬ floatEq comps.object.material.transparency 0 →
      ¬ (comps.n1 / comps.n2 * (comps.n1 / comps.n2) *
          (1 - dot comps.eyev comps.normalv * dot comps.eyev comps.normalv) > 1) →
      World.refractedColorImpl w comps remaining =
        (World.colorAtImpl w
          ⟨comps.underPoint,
           (comps.normalv.smul (comps.n1 / comps.n2 * dot comps.eyev comps.normalv -
             Real.sqrt (1 - comps.n1 / comps.n2 * (comps.n1 / comps.n2) *
               (1 - dot comps.eyev comps.normalv * dot comps.eyev comps.normalv)))).sub
           (comps.eyev.smul (comps.n1 / comps.n2))⟩ (remaining - 1)).map
          (fun c => c.smul comps.object.material.transparency)) := by
  refine ⟨?_, ?_, ?_, ?_⟩
  · intro h
    simp [World.refractedColorImpl, h]
  · intro ht
    by_cases hr : remaining < 1
    · simp [World.refractedColorImpl, hr]
    · simp only [World.refractedColorImpl]
      rw [dif_neg hr, if_pos ht]
  · intro hsin
    by_cases hr : remaining < 1
    · simp [World.refractedColorImpl, hr]
    · by_cases ht : floatEq comps.object.material.transparency 0
      · simp only [World.refractedColorImpl]
        rw [dif_neg hr, if_pos ht]
      · simp only [World.refractedColorImpl]
        rw [dif_neg hr, if_neg ht, if_pos hsin]
  · intro h1 h2 h3
    simp only [World.refractedColorImpl]
    rw [dif_neg h1, if_neg h2, if_neg h3]

/-- Witness for `refracted_color_spec`: black at `remaining = 0` on the
glassy context; black for the default (zero-transparency) material; black
under total internal reflection; and the recursive lookup equation on the
glassy context at `remaining = 5`. -/
theorem refracted_color_spec_witness :
    World.refractedColorImpl emptyWorld glassyComps 0 = some Color.black ∧
    World.refractedColorImpl emptyWorld
      ⟨1, mkSObj 0, pointT 0 0 0, pointT 0 0 0, pointT 0 0 0,
       vectorT 0 1 0, vectorT 0 1 0, vectorT 0 0 1, false, 1, 1⟩ 5 = some Color.black ∧
    World.refractedColorImpl emptyWorld tirComps 5 = some Color.black ∧
    World.refractedColorImpl emptyWorld glassyComps 5 =
      (World.colorAtImpl emptyWorld
        ⟨glassyComps.underPoint,
         (glassyComps.normalv.smul (glassyComps.n1 / glassyComps.n2 *
             dot glassyComps.eyev glassyComps.normalv -
           Real.sqrt (1 - glassyComps.n1 / glassyComps.n2 * (glassyComps.n1 / glassyComps.n2) *
             (1 - dot glassyComps.eyev glassyComps.normalv *
               dot glassyComps.eyev glassyComps.normalv)))).sub
         (glassyComps.eyev.smul (glassyComps.n1 / glassyComps.n2))⟩ 4).map
        (fun c => c.smul glassyComps.object.material.transparency) := by
  refine ⟨(refracted_color_spec emptyWorld glassyComps 0).1 (by norm_num), ?_, ?_, ?_⟩
  · exact (refracted_color_spec emptyWorld _ 5).2.1
      (by simp [mkSObj, Material.new, floatEq, eps])
  · exact (refracted_color_spec emptyWorld tirComps 5).2.2.1
      (by simp [tirComps, dot, vectorT]; norm_num)
  · exact (refracted_color_spec emptyWorld glassyComps 5).2.2.2 (by norm_num)
      (by simp [glassyComps, glassyMaterial, floatEq, eps]; norm_num)
      (by simp [glassyComps, dot, vectorT])

/-- In a world without objects every color lookup sees no hit and returns
black. -/
theorem colorAtImpl_no_objects (ls : List Light) (m : ℤ) (ray : Ray)
    (remaining : ℤ) :
    World.colorAtImpl ⟨[], ls, m⟩ ray remaining = some Color.black := by
  simp [World.colorAtImpl, World.intersects, hit]

/-- Claim C4: when `shade_hit`'s collaborators succeed (shadow test,
reflected and refracted colors, `lights[0]`, and the Phong surface), the
result is `surface + reflected·r + refracted·(1−r)` with `r` the Schlick
reflectance whenever the material has `reflective > 0` and
`transparency > 0`, and `surface + reflected + refracted` whenever
`reflective = 0` or `transparency = 0`. -/
theorem shade_hit_schlick_blend (w : World) (comps : PrecomputedData)
    (remaining : ℤ) (s : Bool)
    (hsh : w.isShadowed comps.overPoint = some s)
    (refl refr : Color)
    (hrefl : World.reflectedColorImpl w comps remaining = some refl)
    (hrefr : World.refractedColorImpl w comps remaining = some refr)
    (light0 : Light) (rest : List Light) (hlights : w.lights = light0 :: rest)
    (surface : Color)
    (hsurf : lighting comps.object.material (some comps.object) (some w) light0
      comps.point (some comps.overPoint) comps.eyev comps.normalv s = some surface) :
    (comps.object.material.reflective > 0 → comps.object.material.transparency > 0 →
      World.shadeHitImpl w comps remaining =
        some ((surface.add (refl.smul (schlick comps))).add
          (refr.smul (1 - schlick comps)))) ∧
    (comps.object.material.reflective = 0 ∨ comps.object.material.transparency = 0 →
      World.shadeHitImpl w comps remaining =
        some ((surface.add refl).add refr)) := by
  have hbody : World.shadeHitImpl w comps remaining =
      if comps.object.material.reflective > 0 ∧ comps.object.material.transparency > 0
      then some ((surface.add (refl.smul (schlick comps))).add
        (refr.smul (1 - schlick comps)))
      else some ((surface.add refl).add refr) := by
    simp only [World.shadeHitImpl, hsh, hrefl, hrefr, hlights, List.head?_cons,
      Option.bind_eq_bind, Option.some_bind, hsurf]
    rfl
  constructor
  · intro h1 h2
    rw [hbody, if_pos ⟨h1, h2⟩]
  · intro hor
    rw [hbody, if_neg (by rcases hor with h | h <;> simp [h])]

/-- A material that is half reflective and half transparent. -/
noncomputable def blendMaterial : Material :=
  ⟨⟨1, 1, 1⟩, 1/10, 9/10, 9/10, 200, 1/2, 1/2, 1, none, none, none⟩

/-- The half-reflective half-transparent object of the blend witness. -/
noncomputable def blendObject : SObject := ⟨0, 1, blendMaterial, fun t => t⟩

/-- A shading context on `blendObject` with `n1 = n2 = 3/2` and a
perpendicular eye vector. -/
noncomputable def blendComps : PrecomputedData :=
  ⟨1, blendObject, pointT 0 0 0, pointT 0 0 0, pointT 0 0 0,
   vectorT 1 0 0, vectorT 0 1 0, vectorT 0 0 1, false, 3/2, 3/2⟩

/-- A white point light one unit in front of the origin. -/
noncomputable def blendLight : Light := Light.pointLight (pointT 0 0 (-1)) ⟨1, 1, 1⟩

/-- A world with no objects and the single `blendLight`. -/
noncomputable def blendWorld : World := ⟨[], [blendLight], 4⟩

/-- A shading context on a default-material object (zero reflective, zero
transparent) in the same geometry. -/
noncomputable def plainComps : PrecomputedData :=
  ⟨1, mkSObj 0, pointT 0 0 0, pointT 0 0 0, pointT 0 0 0,
   vectorT 1 0 0, vectorT 0 1 0, vectorT 0 0 1, false, 3/2, 3/2⟩

/-- Witness for `shade_hit_schlick_blend`: in `blendWorld` the shadow test
answers `false`, both recursive colors are black, the surface is the
ambient term `(0.1, 0.1, 0.1)`, and `shade_hit` produces the Schlick blend
on the blend material and the plain sum on the default material. -/
theorem shade_hit_schlick_blend_witness :
    blendWorld.isShadowed blendComps.overPoint = some false ∧
    World.shadeHitImpl blendWorld blendComps 4 =
      some ((((⟨1/10, 1/10, 1/10⟩ : Color)).add
        (Color.black.smul (schlick blendComps))).add
        (Color.black.smul (1 - schlick blendComps))) ∧
    World.shadeHitImpl blendWorld plainComps 4 =
      some (((⟨1/10, 1/10, 1/10⟩ : Color).add Color.black).add Color.black) := by
  have hsh : blendWorld.isShadowed blendComps.overPoint = some false := by
    simp [World.isShadowed, blendWorld, blendLight, blendComps, Light.pointLight,
      World.intersects, hit]
  have hrefl : World.reflectedColorImpl blendWorld blendComps 4 = some Color.black := by
    simp only [World.reflectedColorImpl]
    rw [dif_neg (by norm_num), if_neg (by
      simp [blendComps, blendObject, blendMaterial, floatEq, eps]; norm_num)]
    rw [show blendWorld = ⟨[], [blendLight], 4⟩ from rfl, colorAtImpl_no_objects]
    simp [Color.smul, Color.black]
  have hrefr : World.refractedColorImpl blendWorld blendComps 4 = some Color.black := by
    simp only [World.refractedColorImpl]
    rw [dif_neg (by norm_num), if_neg (by
      simp [blendComps, blendObject, blendMaterial, floatEq, eps]; norm_num),
      if_neg (by simp [blendComps, dot, vectorT])]
    rw [show blendWorld = ⟨[], [blendLight], 4⟩ from rfl, colorAtImpl_no_objects]
    simp [Color.smul, Color.black]
  have hsurf : lighting blendComps.object.material (some blendComps.object)
      (some blendWorld) blendLight blendComps.point (some blendComps.overPoint)
      blendComps.eyev blendComps.normalv false = some ⟨1/10, 1/10, 1/10⟩ := by
    simp only [lighting, blendComps, blendObject, blendMaterial, blendLight,
      Light.pointLight]
    norm_num [Tuple.sub, Tuple.normalize, Tuple.magnitude, Tuple.add, Tuple.neg,
      Tuple.smul, Tuple.reflect, dot, vectorT, pointT, Color.had, Color.smul,
      Color.add, Color.black, floatEq, eps, Real.sqrt_one]
  have h4 := shade_hit_schlick_blend blendWorld blendComps 4 false hsh
    Color.black Color.black hrefl hrefr blendLight [] rfl _ hsurf
  have hshp : blendWorld.isShadowed plainComps.overPoint = some false := by
    simp [World.isShadowed, blendWorld, blendLight, plainComps, Light.pointLight,
      World.intersects, hit]
  have hreflp : World.reflectedColorImpl blendWorld plainComps 4 = some Color.black := by
    simp only [World.reflectedColorImpl]
    rw [dif_neg (by norm_num),
      if_pos (by simp [plainComps, mkSObj, Material.new, floatEq, eps])]
  have hrefrp : World.refractedColorImpl blendWorld plainComps 4 = some Color.black := by
    simp only [World.refractedColorImpl]
    rw [dif_neg (by norm_num),
      if_pos (by simp [plainComps, mkSObj, Material.new, floatEq, eps])]
  have hsurfp : lighting plainComps.object.material (some plainComps.object)
      (some blendWorld) blendLight plainComps.point (some plainComps.overPoint)
      plainComps.eyev plainComps.normalv false = some ⟨1/10, 1/10, 1/10⟩ := by
    simp only [lighting, plainComps, mkSObj, Material.new, blendLight,
      Light.pointLight]
    norm_num [Tuple.sub, Tuple.normalize, Tuple.magnitude, Tuple.add, Tuple.neg,
      Tuple.smul, Tuple.reflect, dot, vectorT, pointT, Color.had, Color.smul,
      Color.add, Color.black, floatEq, eps, Real.sqrt_one]
  have h4p := shade_hit_schlick_blend blendWorld plainComps 4 false hshp
    Color.black Color.black hreflp hrefrp blendLight [] rfl _ hsurfp
  refine ⟨hsh, ?_, ?_⟩
  · exact h4.1 (by simp [blendComps, blendObject, blendMaterial])
      (by simp [blendComps, blendObject, blendMaterial])
  · exact h4p.2 (Or.inl (by simp [plainComps, mkSObj, Material.new]))

end Raytracer
